import Mathlib

/-!
Shallow embedding of the fastnear/neardata-server block-retrieval pipeline
(src/types.rs, src/reader.rs, src/cache.rs, src/api.rs) and proofs about it.

External effects (the redis cache, the filesystem, sleeping, pub/sub waits)
are modelled as explicit oracles passed to the embedded functions, and the
side effects a function performs (waits, sleeps, archive reads, cache
writes) are returned as an explicit effect trace.
-/

namespace Neardata

/-- Mirror of `types.rs` `type BlockHeight = u64` (heights stay far below
2^64, and every arithmetic operation used on them in the sources is checked
or saturating, so `Nat` is a faithful carrier; signatures below use `Nat`
directly). -/
abbrev BlockHeight := Nat

/-- Mirror of `types.rs` `enum ChainId`. -/
inductive ChainId where
  | mainnet
  | testnet
deriving DecidableEq, Repr

/-- Mirror of the `Display` impl for `ChainId` in `types.rs`. -/
def ChainId.render : ChainId → String
  | .mainnet => "mainnet"
  | .testnet => "testnet"

/-- Mirror of the `Finality` enum used throughout `api.rs`/`cache.rs`
(declared in glue code outside `src/`; the spec fixes it as the closed enum
`{Final, Optimistic}`). -/
inductive Finality where
  | final
  | optimistic
deriving DecidableEq, Repr

/-- Mirror of `cache.rs` `finality_suffix`. -/
def finality_suffix : Finality → String
  | .final => ""
  | .optimistic => "_opt"

/-- Mirror of `main.rs` `ReadConfig` as used by `reader.rs`. -/
structure ReadConfig where
  path : String
  save_every_n : Nat
deriving Repr

/-- Mirror of the `ArchiveConfig` fields used by `api.rs`
(`archive_boundaries`, `archive_index`, `domain_name`). -/
structure ArchiveConfig where
  archive_boundaries : List Nat
  domain_name : String
  archive_index : Nat
deriving Repr

/-- Mirror of the `AppState` fields used by `api.rs`. -/
structure AppState where
  chain_id : ChainId
  genesis_block_height : Nat
  is_latest : Bool
  is_fresh : Bool
  read_config : Option ReadConfig
  archive_config : Option ArchiveConfig

/-- Rust `format!("{:0>12}", n)`: decimal rendering left-padded with zeros
to at least 12 characters. -/
def pad12 (n : Nat) : String :=
  let s := toString n
  String.mk (List.replicate (12 - s.length) '0') ++ s

/-- Mirror of `reader.rs` `archive_filename`. -/
def archive_filename (config : ReadConfig) (chain_id : ChainId)
    (block_height : Nat) : String :=
  let starting_block := block_height / config.save_every_n * config.save_every_n
  let padded := pad12 starting_block
  config.path ++ "/" ++ chain_id.render ++ "/" ++ (padded.take 6) ++ "/"
    ++ ((padded.drop 6).take 3) ++ "/" ++ padded ++ ".tgz"

/-- The tar entries of an archive file: entry name to file content, later
entries overwriting earlier ones exactly as `read_archive`'s `collect()`
into a `HashMap` does. `none` for the whole file models a missing file on
disk (`read_archive` then returns the empty map). -/
abbrev ArchiveFs := Option (List (String × String))

/-- Lookup in the collected entry map: the last entry with the given name
wins, as in `HashMap::from_iter`. -/
def entriesGet (entries : List (String × String)) (key : String) : Option String :=
  (entries.reverse.find? (fun p => p.1 == key)).map (·.2)

/-- Mirror of `reader.rs` `read_archive`: a missing file gives the empty
map, otherwise the collected entries. -/
def read_archive (fs : ArchiveFs) : List (String × String) :=
  match fs with
  | none => []
  | some entries => entries

/-- Mirror of `reader.rs` `read_blocks`: a dense sequence of
`save_every_n` heights starting at `floor(h/N)*N`, each paired with the
bundle entry named `<12-digit height>.json` when present. -/
def read_blocks (config : ReadConfig) (_chain_id : ChainId)
    (block_height : Nat) (fs : ArchiveFs) :
    List (Nat × Option String) :=
  let starting_block := block_height / config.save_every_n * config.save_every_n
  let blocks := read_archive fs
  (List.range config.save_every_n).map (fun i =>
    let bh := starting_block + i
    (bh, entriesGet blocks (pad12 bh ++ ".json")))

/-! ## JSON values (the fragment of `serde_json::Value` the server uses) -/

/-- Mirror of `serde_json::Value` as used by the derived views: numbers only
occur as shard ids (unsigned integers), so `Nat` carries them. -/
inductive Json where
  | null
  | bool (b : Bool)
  | num (n : Nat)
  | str (s : String)
  | arr (elements : List Json)
  | obj (fields : List (String × Json))

/-- JSON string escaping for the characters the bodies in this development
contain. -/
def escapeChar (c : Char) : String :=
  if c = '"' then "\\\""
  else if c = '\\' then "\\\\"
  else if c = '\n' then "\\n"
  else if c = '\t' then "\\t"
  else if c = '\r' then "\\r"
  else String.singleton c

/-- Escape a string for inclusion in serialized JSON. -/
def escapeString (s : String) : String :=
  String.join (s.toList.map escapeChar)

mutual

/-- Compact serialization, as `serde_json::to_string` produces for the
values this server builds. -/
def jsonRender : Json → String
  | .null => "null"
  | .bool true => "true"
  | .bool false => "false"
  | .num n => toString n
  | .str s => "\"" ++ escapeString s ++ "\""
  | .arr xs => "[" ++ jsonRenderList xs ++ "]"
  | .obj fs => "\x7b" ++ jsonRenderFields fs ++ "\x7d"

/-- Comma-separated serialization of array elements. -/
def jsonRenderList : List Json → String
  | [] => ""
  | [x] => jsonRender x
  | x :: y :: xs => jsonRender x ++ "," ++ jsonRenderList (y :: xs)

/-- Comma-separated serialization of object fields. -/
def jsonRenderFields : List (String × Json) → String
  | [] => ""
  | [(k, v)] => "\"" ++ escapeString k ++ "\":" ++ jsonRender v
  | (k, v) :: g :: fs =>
    "\"" ++ escapeString k ++ "\":" ++ jsonRender v ++ "," ++ jsonRenderFields (g :: fs)

end

/-- Mirror of `Value::get(key)` on objects (`None` on other variants). -/
def Json.get : Json → String → Option Json
  | .obj fields, key => (fields.find? (fun p => p.1 == key)).map (·.2)
  | _, _ => none

/-- Mirror of `Value::index` (`value[key]`): missing keys and non-objects
give `Null`. -/
def Json.idx (j : Json) (key : String) : Json :=
  (j.get key).getD .null

/-- Mirror of `Value::as_array`. -/
def Json.asArray : Json → Option (List Json)
  | .arr xs => some xs
  | _ => none

/-- Mirror of `Value::as_u64` on the values this development builds. -/
def Json.asU64 : Json → Option Nat
  | .num n => some n
  | _ => none

/-! ## HTTP responses and service errors (`api.rs`) -/

/-- HTTP response as the handlers observe it: status code, ordered header
list, body bytes (UTF-8 strings here). -/
structure HttpResponse where
  status : Nat
  headers : List (String × String)
  body : String
deriving DecidableEq, Repr

/-- Mirror of the `header` helper in `api.rs`: first header value with the
given (lower-case) name. -/
def headerGet (r : HttpResponse) (tag : String) : Option String :=
  (r.headers.find? (fun p => p.1 == tag)).map (·.2)

/-- Mirror of `HeaderMap::insert`: drop existing values for the name, add
the new one. -/
def headersInsert (hs : List (String × String)) (tag v : String) :
    List (String × String) :=
  hs.filter (fun p => p.1 != tag) ++ [(tag, v)]

/-- Mirror of `enum ServiceError` in `api.rs`. -/
inductive ServiceError where
  | argumentError
  | cacheError (msg : String)
  | internalDataError
deriving DecidableEq, Repr

/-- Mirror of `enum BlockOrResponse` in `api.rs`. -/
inductive BlockOrResponse where
  | block (b : String)
  | response (r : HttpResponse)
deriving DecidableEq, Repr

/-- Mirror of `MAX_BLOCK_HEIGHT = 10u64.pow(15)`. -/
def MAX_BLOCK_HEIGHT : Nat := 10 ^ 15

/-- Mirror of `EXPECTED_CACHED_BLOCKS = 10`. -/
def EXPECTED_CACHED_BLOCKS : Nat := 10

/-- Mirror of `MAX_WAIT_BLOCKS = 10`. -/
def MAX_WAIT_BLOCKS : Nat := 10

/-- Seconds in `DEFAULT_CACHE_DURATION` (1 year). -/
def DEFAULT_CACHE_DURATION_SECS : Nat := 365 * 24 * 60 * 60

/-- Rendering of `format!("public, max-age={}", secs)`. -/
def cacheControlValue (secs : Nat) : String :=
  "public, max-age=" ++ toString secs

/-- Response produced by `HttpResponse::NotFound()...json(json!(...))` with
an optional preceding `Cache-Control` header, as built in `api.rs`. -/
def notFoundJson (cc : Option String) (v : Json) : HttpResponse :=
  { status := 404
    headers := (match cc with
      | some c => [("cache-control", c)]
      | none => []) ++ [("content-type", "application/json")]
    body := jsonRender v }

/-- Response produced by `HttpResponse::Found()` with a `Cache-Control`
header and a `Location` header, as built in `api.rs`. -/
def foundRedirect (cc : Option String) (location : String) : HttpResponse :=
  { status := 302
    headers := (match cc with
      | some c => [("cache-control", c)]
      | none => []) ++ [("location", location)]
    body := "" }

/-! ## `check_block_height_limits` (`api.rs`) -/

/-- Mirror of `check_block_height_limits`. -/
def check_block_height_limits (block_height : Nat) (st : AppState) :
    Option HttpResponse :=
  if block_height > MAX_BLOCK_HEIGHT then
    some (notFoundJson (some (cacheControlValue (24 * 60 * 60)))
      (.obj [("error", .str "Block height is too high"),
             ("type", .str "BLOCK_HEIGHT_TOO_HIGH")]))
  else if block_height < st.genesis_block_height then
    some (notFoundJson (some (cacheControlValue (24 * 60 * 60)))
      (.obj [("error", .str "Block height is before the genesis"),
             ("type", .str "BLOCK_HEIGHT_TOO_LOW")]))
  else none

/-! ## `check_archive_redirects` (`api.rs`) -/

/-- Mirror of `check_archive_redirects`. The optimistic-on-non-fresh check
comes first in the source; only then is the archive slice index computed. -/
def check_archive_redirects (block_height : Nat) (f : Finality)
    (st : AppState) : Option HttpResponse :=
  match st.archive_config with
  | none => none
  | some archive_config =>
    if ¬ st.is_fresh ∧ f = .optimistic then
      some (foundRedirect (some (cacheControlValue (24 * 60 * 60)))
        ("https://" ++ archive_config.domain_name ++ "/v0/block"
          ++ finality_suffix f ++ "/" ++ toString block_height))
    else
      let index := archive_config.archive_boundaries.findIdx
        (fun x => decide (block_height < x))
      if index ≠ archive_config.archive_index then
        some (foundRedirect (some (cacheControlValue (24 * 60 * 60)))
          ("https://a" ++ toString index ++ "." ++ archive_config.domain_name
            ++ "/v0/block/" ++ toString block_height))
      else none

/-! ## `handle_not_cached_block` (`api.rs`) -/

/-- Observable side effects of the resolver, in program order. -/
inductive Effect where
  | waitForBlock (h : Nat) (timeoutMs : Nat)
  | sleepMs (ms : Nat)
  | readArchive (filename : String)
  | setManyBlocks (blocks : List (Nat × Option String))
deriving DecidableEq, Repr

/-- Outcome of one `handle_not_cached_block` call: `retry` is the `Ok(None)`
return (back to the query loop), `done` is `Ok(Some(..))`, `fail` an `Err`. -/
inductive HandleOutcome where
  | retry
  | done (b : BlockOrResponse)
  | fail (e : ServiceError)
deriving DecidableEq, Repr

/-- Mirror of `handle_not_cached_block`. `lockAcquired` is the result of
`acquire_archive_read_attempt`, `fs` the archive file contents. A `none`
result models a panic (the `.expect` on a missing archive config, or the
`.unwrap()` after the bundle lookup). -/
def handle_not_cached_block (block_height last_block_height : Nat)
    (f : Finality) (st : AppState) (lockAcquired : Bool) (fs : ArchiveFs) :
    Option (HandleOutcome × List Effect) :=
  if st.is_latest ∧ block_height > last_block_height + MAX_WAIT_BLOCKS then
    some (.done (.response (notFoundJson none
      (.obj [("error", .str "The block is too far in the future"),
             ("type", .str "BLOCK_DOES_NOT_EXIST")]))), [])
  else if st.is_latest ∧ block_height > last_block_height then
    some (.retry,
      [.waitForBlock block_height (1000 * (block_height - last_block_height + 1))])
  else if st.is_latest ∧ block_height > last_block_height - EXPECTED_CACHED_BLOCKS then
    some (.fail (.cacheError "The block is not cached"), [])
  else if f = .optimistic then
    some (.done (.response (foundRedirect (some (cacheControlValue (24 * 60 * 60)))
      ("/v0/block/" ++ toString block_height))), [])
  else
    match st.read_config with
    | none =>
      match st.archive_config with
      | none => none
      | some archive_config =>
        some (.done (.response (foundRedirect (some (cacheControlValue (24 * 60 * 60)))
          ("https://a" ++ toString archive_config.archive_boundaries.length ++ "."
            ++ archive_config.domain_name ++ "/v0/block/"
            ++ toString block_height))), [])
    | some read_config =>
      let archive_fn := archive_filename read_config st.chain_id block_height
      if ¬ lockAcquired then
        some (.retry, [.sleepMs 100])
      else
        let blocks := read_blocks read_config st.chain_id block_height fs
        match blocks.findSome? (fun p =>
          if p.1 = block_height then some (p.2.getD "") else none) with
        | none => none
        | some block =>
          some (.done (.block block),
            [.readArchive archive_fn, .setManyBlocks blocks])

/-! ## The resolver loop and `get_block_inner` (`api.rs`) -/

/-- Cache and lock oracles the resolver consults, indexed by loop
iteration, plus the archive file contents. -/
structure ResolverEnv where
  cache : Nat → Option String × Option Nat
  lock : Nat → Bool
  fs : ArchiveFs

/-- Result of the resolver loop under a fuel bound: `fuelOut` means the
fuel ran out with the loop still running. -/
inductive LoopResult where
  | value (b : BlockOrResponse)
  | error (e : ServiceError)
  | panicked
  | fuelOut
deriving DecidableEq, Repr

/-- Mirror of `retrieve_block_from_cache_or_archive`: the unbounded
`loop` in the source, run here for at most `fuel` iterations starting at
iteration `iter`. -/
def retrieve_block_from_cache_or_archive (block_height : Nat)
    (f : Finality) (st : AppState) (env : ResolverEnv) :
    (iter : Nat) → (fuel : Nat) → LoopResult
  | _, 0 => .fuelOut
  | iter, fuel + 1 =>
    match env.cache iter with
    | (some block, _) => .value (.block block)
    | (none, none) =>
      .error (.cacheError "The last block height is missing from the cache")
    | (none, some last_block_height) =>
      match handle_not_cached_block block_height last_block_height f st
        (env.lock iter) env.fs with
      | none => .panicked
      | some (.retry, _) =>
        retrieve_block_from_cache_or_archive block_height f st env (iter + 1) fuel
      | some (.done b, _) => .value b
      | some (.fail e, _) => .error e

/-- Result of `get_block_inner` under a fuel bound. -/
inductive HttpResult where
  | ok (r : HttpResponse)
  | err (e : ServiceError)
  | panicked
  | fuelOut
deriving DecidableEq, Repr

/-- Mirror of `get_block_inner`: bounds check, archive redirects, the
resolver loop, then body/cache-control shaping for a cached block. -/
def get_block_inner (block_height : Nat) (f : Finality)
    (st : AppState) (env : ResolverEnv) (fuel : Nat) : HttpResult :=
  match check_block_height_limits block_height st with
  | some r => .ok r
  | none =>
    match check_archive_redirects block_height f st with
    | some r => .ok r
    | none =>
      match retrieve_block_from_cache_or_archive block_height f st env 0 fuel with
      | .fuelOut => .fuelOut
      | .panicked => .panicked
      | .error e => .err e
      | .value (.response r) => .ok r
      | .value (.block block) =>
        let body := if block.isEmpty then "null" else block
        let secs := if block.isEmpty then 24 * 60 * 60 else DEFAULT_CACHE_DURATION_SECS
        .ok { status := 200
              headers := [("content-type", "application/json; charset=utf-8"),
                          ("cache-control", cacheControlValue secs)]
              body := body }

/-! ## Derived views: `redirect_or_map` and the projection closures -/

/-- Mirror of `redirect_or_map`. `parseJson` stands for
`serde_json::from_slice` on the body. A `none` result models the
`.unwrap()` panics on a missing `Location` (302 branch) or missing
`Cache-Control` (200 branch) header. -/
def redirect_or_map (response : HttpResponse) (suffix : String)
    (parseJson : String → Option Json)
    (f : Json → Except ServiceError Json) :
    Option (Except ServiceError HttpResponse) :=
  if response.status == 302 then
    match headerGet response "location" with
    | none => none
    | some previous_location =>
      some (.ok { response with
        headers := headersInsert response.headers "location"
          (previous_location ++ suffix) })
  else if response.status == 200 then
    match headerGet response "cache-control" with
    | none => none
    | some cache_control_header =>
      match parseJson response.body with
      | none => some (.error .internalDataError)
      | some block_json =>
        match f block_json with
        | .error e => some (.error e)
        | .ok v =>
          some (.ok { status := 200
                      headers := [("cache-control", cache_control_header),
                                  ("content-type", "application/json")]
                      body := jsonRender v })
  else some (.ok response)

/-- The projection closure of `get_block_headers`: the `block` field or
`Null`. -/
def headersProjection (block_json : Json) : Json :=
  (block_json.get "block").getD .null

/-- The shared shard lookup of `get_chunk`/`get_shard`: the first element
of `shards` whose `shard_id` field is the given id. -/
def findShard (block_json : Json) (shard_id : Nat) : Option Json :=
  ((block_json.get "shards").bind Json.asArray).bind
    (fun shards => shards.find?
      (fun shard => (shard.idx "shard_id").asU64 == some shard_id))

/-- The projection closure of `get_shard`. -/
def shardProjection (block_json : Json) (shard_id : Nat) : Json :=
  (findShard block_json shard_id).getD .null

/-- The projection closure of `get_chunk`: the matching shard's `chunk`
field. -/
def chunkProjection (block_json : Json) (shard_id : Nat) : Json :=
  ((findShard block_json shard_id).bind (fun shard => shard.get "chunk")).getD .null

/-- Mirror of the tail of `get_block_headers`: rewrite the parent block
response through the headers projection. -/
def get_block_headers_view (response : HttpResponse)
    (parseJson : String → Option Json) : Option (Except ServiceError HttpResponse) :=
  redirect_or_map response "/headers" parseJson
    (fun block_json => .ok (headersProjection block_json))

/-- Mirror of the tail of `get_chunk`. -/
def get_chunk_view (shard_id : Nat) (response : HttpResponse)
    (parseJson : String → Option Json) : Option (Except ServiceError HttpResponse) :=
  redirect_or_map response ("/chunk/" ++ toString shard_id) parseJson
    (fun block_json => .ok (chunkProjection block_json shard_id))

/-- Mirror of the tail of `get_shard`. -/
def get_shard_view (shard_id : Nat) (response : HttpResponse)
    (parseJson : String → Option Json) : Option (Except ServiceError HttpResponse) :=
  redirect_or_map response ("/shard/" ++ toString shard_id) parseJson
    (fun block_json => .ok (shardProjection block_json shard_id))

/-! ## The retry wrapper (`cache.rs` `with_retries!`) -/

/-- Mirror of the body of the `with_retries!` macro from attempt index `i`
with current `delay` (ms). `attempts i` is the outcome of the `i`-th
connection-plus-query attempt. Returns the loop result, the total number
of attempts made, and the list of sleeps performed (ms, in order). -/
def retryFrom {E A : Type} (attempts : Nat → Except E A) (i delay : Nat) :
    Except E A × Nat × List Nat :=
  match attempts i with
  | .ok v => (.ok v, i + 1, [])
  | .error e =>
    if 7 ≤ i + 1 then (.error e, i + 1, [delay])
    else
      let r := retryFrom attempts (i + 1) (delay * 2)
      (r.1, r.2.1, delay :: r.2.2)
termination_by 7 - i
decreasing_by omega

/-- Mirror of `with_retries!`: start at attempt 0 with a 100 ms delay. -/
def with_retries {E A : Type} (attempts : Nat → Except E A) :
    Except E A × Nat × List Nat :=
  retryFrom attempts 0 100

/-- Error classes a redis operation can fail with; the retry loop in the
source treats every one of them as retryable. -/
inductive RedisErrorKind where
  | connection
  | timeout
  | other (msg : String)
deriving DecidableEq, Repr

/-! ## The archive attempt lock -/

/-- Modelled from the spec: `acquire_archive_read_attempt` (its definition
lives in cache glue outside `src/`) is SET-if-absent with a short TTL,
"returning true iff the caller is now the designated reader". State is the
expiry instant of the current lock, if any; `now` is the caller's clock. -/
def acquire_archive_read_attempt (ttl : Nat) (lockExpiry : Option Nat)
    (now : Nat) : Bool × Option Nat :=
  match lockExpiry with
  | some e => if now < e then (false, some e) else (true, some (now + ttl))
  | none => (true, some (now + ttl))

/-- Fold the lock over a sequence of acquire attempts (timestamps in
arrival order), returning the timestamps whose acquire returned true. -/
def lockWinners (ttl : Nat) : Option Nat → List Nat → List Nat
  | _, [] => []
  | st, t :: ts =>
    match acquire_archive_read_attempt ttl st t with
    | (true, st') => t :: lockWinners ttl st' ts
    | (false, st') => lockWinners ttl st' ts

/-! ## Theorems -/

/-- C1: a request whose block is present in the cache (the pipelined read
returns it on the first query iteration, after the bounds check and
archive redirects pass) is answered 200 with content type
`application/json; charset=utf-8`; a non-empty cached value is the body
byte-for-byte with `Cache-Control: public, max-age=31536000`, and the
empty-string tombstone becomes the 4-byte body `null` with
`Cache-Control: public, max-age=86400`. -/
theorem c1_cached_block_served (block_height : Nat) (f : Finality)
    (st : AppState) (env : ResolverEnv) (b : String)
    (lastOpt : Option Nat) (fuel : Nat)
    (hLim : check_block_height_limits block_height st = none)
    (hRed : check_archive_redirects block_height f st = none)
    (hCache : env.cache 0 = (some b, lastOpt)) :
    get_block_inner block_height f st env (fuel + 1) =
      .ok { status := 200
            headers := [("content-type", "application/json; charset=utf-8"),
                        ("cache-control",
                          if b.isEmpty then "public, max-age=86400"
                          else "public, max-age=31536000")]
            body := if b.isEmpty then "null" else b } := by
  simp only [get_block_inner, hLim, hRed, retrieve_block_from_cache_or_archive, hCache]
  cases hb : b.isEmpty <;>
    simp [hb, DEFAULT_CACHE_DURATION_SECS, cacheControlValue] <;> decide

/-- Witness for C1 at a concrete cached block. -/
theorem c1_cached_block_served_witness :
    get_block_inner 100 .final
      ⟨.mainnet, 10, true, true, none, none⟩
      ⟨fun _ => (some "\x7b\"block\":1\x7d", some 100), fun _ => true, none⟩ 1 =
      .ok { status := 200
            headers := [("content-type", "application/json; charset=utf-8"),
                        ("cache-control", "public, max-age=31536000")]
            body := "\x7b\"block\":1\x7d" } := by
  have := c1_cached_block_served 100 .final
    ⟨.mainnet, 10, true, true, none, none⟩
    ⟨fun _ => (some "\x7b\"block\":1\x7d", some 100), fun _ => true, none⟩
    "\x7b\"block\":1\x7d" (some 100) 0 (by decide) (by decide) rfl
  simpa using this

/-- C2: on an `is_latest` node, when the pipelined read misses but reports
last height `last`: heights more than 10 past `last` get a 404 with type
`BLOCK_DOES_NOT_EXIST` and no cache-control header; heights in
`(last, last + 10]` wait on the per-height channel for exactly
`1000 * (h - last + 1)` ms and then return to the query loop whatever the
wait outcome; heights in `(last - 10, last]` (u64 saturating subtraction)
fail with the fatal cache error "The block is not cached". -/
theorem c2_latest_not_cached_branches (block_height last : Nat)
    (f : Finality) (st : AppState) (lockAcquired : Bool) (fs : ArchiveFs)
    (hLatest : st.is_latest = true) :
    (block_height > last + 10 →
      ∃ r, handle_not_cached_block block_height last f st lockAcquired fs =
          some (.done (.response r), []) ∧
        r.status = 404 ∧
        headerGet r "cache-control" = none ∧
        r.body = jsonRender (.obj
          [("error", .str "The block is too far in the future"),
           ("type", .str "BLOCK_DOES_NOT_EXIST")]))
    ∧ (last < block_height → block_height ≤ last + 10 →
      handle_not_cached_block block_height last f st lockAcquired fs =
        some (.retry,
          [.waitForBlock block_height (1000 * (block_height - last + 1))]))
    ∧ (last - 10 < block_height → block_height ≤ last →
      handle_not_cached_block block_height last f st lockAcquired fs =
        some (.fail (.cacheError "The block is not cached"), [])) := by
  refine ⟨?_, ?_, ?_⟩
  · intro h1
    refine ⟨notFoundJson none (.obj
      [("error", .str "The block is too far in the future"),
       ("type", .str "BLOCK_DOES_NOT_EXIST")]), ?_, by decide, by decide, rfl⟩
    simp [handle_not_cached_block, MAX_WAIT_BLOCKS, hLatest, h1]
  · intro h1 h2
    have hno : ¬ block_height > last + MAX_WAIT_BLOCKS := by
      simp [MAX_WAIT_BLOCKS]; omega
    simp [handle_not_cached_block, hLatest, hno, h1]
  · intro h1 h2
    have hno : ¬ block_height > last + MAX_WAIT_BLOCKS := by
      simp [MAX_WAIT_BLOCKS]; omega
    have hno2 : ¬ block_height > last := by omega
    have hyes : block_height > last - EXPECTED_CACHED_BLOCKS := by
      simp [EXPECTED_CACHED_BLOCKS]; omega
    simp [handle_not_cached_block, hLatest, hno, hno2, hyes]

/-- Witness for C2 at concrete heights on each of the three branches. -/
theorem c2_latest_not_cached_branches_witness :
    handle_not_cached_block 105 100 .final
      ⟨.mainnet, 10, true, true, none, none⟩ true none =
      some (.retry, [.waitForBlock 105 6000]) ∧
    handle_not_cached_block 95 100 .final
      ⟨.mainnet, 10, true, true, none, none⟩ true none =
      some (.fail (.cacheError "The block is not cached"), []) := by
  constructor
  · have := (c2_latest_not_cached_branches 105 100 .final
      ⟨.mainnet, 10, true, true, none, none⟩ true none rfl).2.1
      (by decide) (by decide)
    simpa using this
  · have := (c2_latest_not_cached_branches 95 100 .final
      ⟨.mainnet, 10, true, true, none, none⟩ true none rfl).2.2
      (by decide) (by decide)
    simpa using this

/-- C3 as stated is false: height `10^15` lies outside the claimed valid
range `[genesis, 10^15)`, yet the bounds check lets it pass into the
resolver, because the source rejects only heights strictly greater than
`10^15` (`block_height > MAX_BLOCK_HEIGHT`). -/
theorem c3_counterexample_max_height_passes :
    check_block_height_limits (10 ^ 15)
      ⟨.mainnet, 9820210, true, true, none, none⟩ = none ∧
    ¬ ((10 : Nat) ^ 15 < 10 ^ 15) := by
  constructor
  · decide
  · omega

/-- C3 amended: the bounds check rejects exactly the heights outside
`[genesis, 10^15]` (the upper bound is inclusive): `h > 10^15` is answered
404 `BLOCK_HEIGHT_TOO_HIGH`, `h < genesis` (for `genesis ≤ 10^15`) is
answered 404 `BLOCK_HEIGHT_TOO_LOW`, both with
`Cache-Control: public, max-age=86400`, and every `h` with
`genesis ≤ h ≤ 10^15` passes the check into the resolver. -/
theorem c3_bounds_check_amended (h : Nat) (st : AppState)
    (hg : st.genesis_block_height ≤ 10 ^ 15) :
    (10 ^ 15 < h →
      check_block_height_limits h st =
        some { status := 404
               headers := [("cache-control", "public, max-age=86400"),
                           ("content-type", "application/json")]
               body := "\x7b\"error\":\"Block height is too high\",\"type\":\"BLOCK_HEIGHT_TOO_HIGH\"\x7d" })
    ∧ (h < st.genesis_block_height →
      check_block_height_limits h st =
        some { status := 404
               headers := [("cache-control", "public, max-age=86400"),
                           ("content-type", "application/json")]
               body := "\x7b\"error\":\"Block height is before the genesis\",\"type\":\"BLOCK_HEIGHT_TOO_LOW\"\x7d" })
    ∧ (st.genesis_block_height ≤ h → h ≤ 10 ^ 15 →
      check_block_height_limits h st = none) := by
  refine ⟨?_, ?_, ?_⟩
  · intro h1
    have hyes : h > MAX_BLOCK_HEIGHT := by simp [MAX_BLOCK_HEIGHT]; omega
    rw [check_block_height_limits, if_pos hyes]
    rfl
  · intro h1
    have hno : ¬ h > MAX_BLOCK_HEIGHT := by simp [MAX_BLOCK_HEIGHT]; omega
    rw [check_block_height_limits, if_neg hno, if_pos h1]
    rfl
  · intro h1 h2
    have hno : ¬ h > MAX_BLOCK_HEIGHT := by simp [MAX_BLOCK_HEIGHT]; omega
    have hno2 : ¬ h < st.genesis_block_height := by omega
    rw [check_block_height_limits, if_neg hno, if_neg hno2]

/-- Witness for the amended C3 at concrete heights on each branch. -/
theorem c3_bounds_check_amended_witness :
    check_block_height_limits 5 ⟨.mainnet, 9820210, true, true, none, none⟩ =
      some { status := 404
             headers := [("cache-control", "public, max-age=86400"),
                         ("content-type", "application/json")]
             body := "\x7b\"error\":\"Block height is before the genesis\",\"type\":\"BLOCK_HEIGHT_TOO_LOW\"\x7d" } ∧
    check_block_height_limits 9820215 ⟨.mainnet, 9820210, true, true, none, none⟩ = none := by
  constructor
  · exact (c3_bounds_check_amended 5 ⟨.mainnet, 9820210, true, true, none, none⟩
      (by decide)).2.1 (by decide)
  · exact (c3_bounds_check_amended 9820215 ⟨.mainnet, 9820210, true, true, none, none⟩
      (by decide)).2.2 (by decide) (by decide)

/-- C4 as stated is false: on a non-fresh node with an `ArchiveConfig`,
an Optimistic request whose target slice differs from this node's slice is
redirected to the fresh server's `/v0/block_opt/<h>` URL, not to the
archive slice URL — the source checks optimistic-on-non-fresh before
computing the archive index, the opposite of the spec's stated question
order. Here `h = 50`, boundaries `[100]`, `archive_index = 1`, so the
target index is `0 ≠ 1`, yet the response is the optimistic redirect. -/
theorem c4_counterexample_opt_redirect_first :
    [(100 : Nat)].findIdx (fun x => decide ((50 : Nat) < x)) = 0 ∧
    (0 : Nat) ≠ 1 ∧
    check_archive_redirects 50 .optimistic
      ⟨.mainnet, 10, false, false, none, some ⟨[100], "example.com", 1⟩⟩ =
      some (foundRedirect (some "public, max-age=86400")
        "https://example.com/v0/block_opt/50") ∧
    (some (foundRedirect (some "public, max-age=86400")
        "https://example.com/v0/block_opt/50") ≠
      some (foundRedirect (some "public, max-age=86400")
        "https://a0.example.com/v0/block/50")) := by
  refine ⟨by decide, by decide, by decide, by decide⟩

/-- The archive slice index computed by `check_archive_redirects`:
the first index `i` with `h < boundary[i]`, or the number of boundaries
when there is none. -/
def archive_target_index (ac : ArchiveConfig) (h : Nat) : Nat :=
  ac.archive_boundaries.findIdx (fun x => decide (h < x))

/-- C4 amended: the optimistic-on-non-fresh redirect is applied first; for
every other request `(h, finality)` on a node with an `ArchiveConfig`, the
target index is the first `i` with `h < boundary[i]` (or the boundary
count when there is none), and whenever it differs from this node's
`archive_index` the response is a 302 to
`https://a<target>.<domain>/v0/block/<h>` with 24h cacheability (no
redirect when it matches). -/
theorem c4_archive_routing_amended (h : Nat) (f : Finality) (st : AppState)
    (ac : ArchiveConfig) (hac : st.archive_config = some ac)
    (hnf : ¬ (st.is_fresh = false ∧ f = .optimistic)) :
    (archive_target_index ac h ≤ ac.archive_boundaries.length)
    ∧ (∀ hlt : archive_target_index ac h < ac.archive_boundaries.length,
        h < ac.archive_boundaries[archive_target_index ac h])
    ∧ (∀ j, (hj : j < ac.archive_boundaries.length) →
        j < archive_target_index ac h → ac.archive_boundaries[j] ≤ h)
    ∧ (archive_target_index ac h ≠ ac.archive_index →
        check_archive_redirects h f st =
          some (foundRedirect (some "public, max-age=86400")
            ("https://a" ++ toString (archive_target_index ac h) ++ "."
              ++ ac.domain_name ++ "/v0/block/" ++ toString h)))
    ∧ (archive_target_index ac h = ac.archive_index →
        check_archive_redirects h f st = none) := by
  have hcond : ¬ (¬ st.is_fresh = true ∧ f = .optimistic) := by
    simp only [Bool.not_eq_true]
    exact hnf
  have hcc : cacheControlValue (24 * 60 * 60) = "public, max-age=86400" := by
    decide
  refine ⟨List.findIdx_le_length _, ?_, ?_, ?_, ?_⟩
  · intro hlt
    have := @List.findIdx_getElem _ (fun x => decide (h < x))
      ac.archive_boundaries hlt
    simpa [archive_target_index] using this
  · intro j hj hlt
    have := @List.not_of_lt_findIdx _ (fun x => decide (h < x))
      ac.archive_boundaries j hlt
    simp only [decide_eq_false_iff_not, not_lt] at this
    exact this
  · intro hne
    unfold archive_target_index at hne ⊢
    rw [check_archive_redirects, hac]
    dsimp only
    rw [if_neg hcond, if_pos hne, hcc]
  · intro heq
    unfold archive_target_index at heq
    rw [check_archive_redirects, hac]
    dsimp only
    rw [if_neg hcond, if_neg (not_not_intro heq)]

/-- Witness for the amended C4: Final request on a non-matching slice. -/
theorem c4_archive_routing_amended_witness :
    check_archive_redirects 50 .final
      ⟨.mainnet, 10, false, false, none, some ⟨[100], "example.com", 1⟩⟩ =
      some (foundRedirect (some "public, max-age=86400")
        "https://a0.example.com/v0/block/50") := by
  have := (c4_archive_routing_amended 50 .final
    ⟨.mainnet, 10, false, false, none, some ⟨[100], "example.com", 1⟩⟩
    ⟨[100], "example.com", 1⟩ rfl (by simp)).2.2.2.1 (by decide)
  simpa using this

/-- C5: for a 200 parent block response whose body parses to `B`, the
derived views project: `/headers` serves `B.block` (JSON `null` when
absent), `/shard/{s}` serves the first element of `B.shards` whose
`shard_id` equals `s` (`null` when none), `/chunk/{s}` serves that shard's
`chunk` field (`null` when shard or chunk is absent), and each derived
response carries the parent's `Cache-Control` value verbatim. -/
theorem c5_derived_views (parent : HttpResponse)
    (parseJson : String → Option Json) (B : Json) (s : Nat) (cc : String)
    (h200 : parent.status = 200)
    (hcc : headerGet parent "cache-control" = some cc)
    (hparse : parseJson parent.body = some B) :
    get_block_headers_view parent parseJson =
      some (.ok { status := 200
                  headers := [("cache-control", cc),
                              ("content-type", "application/json")]
                  body := jsonRender ((B.get "block").getD .null) })
    ∧ get_shard_view s parent parseJson =
      some (.ok { status := 200
                  headers := [("cache-control", cc),
                              ("content-type", "application/json")]
                  body := jsonRender ((findShard B s).getD .null) })
    ∧ get_chunk_view s parent parseJson =
      some (.ok { status := 200
                  headers := [("cache-control", cc),
                              ("content-type", "application/json")]
                  body := jsonRender
                    (((findShard B s).bind (fun shard => shard.get "chunk")).getD .null) })
    ∧ chunkProjection B s = ((shardProjection B s).get "chunk").getD .null := by
  refine ⟨?_, ?_, ?_, ?_⟩
  · simp [get_block_headers_view, redirect_or_map, h200, hcc, hparse,
      headersProjection]
  · simp [get_shard_view, redirect_or_map, h200, hcc, hparse,
      shardProjection]
  · simp [get_chunk_view, redirect_or_map, h200, hcc, hparse,
      chunkProjection]
  · unfold chunkProjection shardProjection
    cases hfs : findShard B s with
    | none => simp [Json.get]
    | some shard => simp

/-- Witness for C5 at a concrete two-shard block. -/
theorem c5_derived_views_witness :
    get_shard_view 0
      { status := 200
        headers := [("content-type", "application/json; charset=utf-8"),
                    ("cache-control", "public, max-age=31536000")]
        body := "parsed-by-oracle" }
      (fun _ => some (Json.obj
        [("shards", .arr
          [.obj [("shard_id", .num 0), ("chunk", .obj [("x", .num 1)])],
           .obj [("shard_id", .num 1)]])])) =
      some (.ok { status := 200
                  headers := [("cache-control", "public, max-age=31536000"),
                              ("content-type", "application/json")]
                  body := "\x7b\"shard_id\":0,\"chunk\":\x7b\"x\":1\x7d\x7d" }) := by
  have := (c5_derived_views
    { status := 200
      headers := [("content-type", "application/json; charset=utf-8"),
                  ("cache-control", "public, max-age=31536000")]
      body := "parsed-by-oracle" }
    (fun _ => some (Json.obj
      [("shards", .arr
        [.obj [("shard_id", .num 0), ("chunk", .obj [("x", .num 1)])],
         .obj [("shard_id", .num 1)]])]))
    (Json.obj
      [("shards", .arr
        [.obj [("shard_id", .num 0), ("chunk", .obj [("x", .num 1)])],
         .obj [("shard_id", .num 1)]])])
    0 "public, max-age=31536000" rfl rfl rfl).2.1
  rw [this]
  rfl

/-- Helper: `read_blocks` written as a map over the contiguous height
range `range' (floor(h/N)*N) N`. -/
theorem read_blocks_eq_range' (c : ReadConfig) (ch : ChainId) (h : Nat)
    (fs : ArchiveFs) :
    read_blocks c ch h fs =
      (List.range' (h / c.save_every_n * c.save_every_n) c.save_every_n).map
        (fun bh => (bh, entriesGet (read_archive fs) (pad12 bh ++ ".json"))) := by
  simp only [read_blocks, List.range'_eq_map_range, List.map_map]
  rfl

/-- Helper: `findSome?` of a point predicate over a contiguous range hits
the unique matching element. -/
theorem range'_findSome?_eq {α : Type} (g : Nat → α) (hh : Nat) :
    ∀ (n s : Nat), s ≤ hh → hh < s + n →
      ((List.range' s n).findSome? fun x => if x = hh then some (g x) else none)
        = some (g hh) := by
  intro n
  induction n with
  | zero => intro s h1 h2; omega
  | succ m ih =>
    intro s h1 h2
    rw [List.range'_succ, List.findSome?_cons]
    by_cases hs : s = hh
    · subst hs; simp
    · simp only [if_neg hs]
      exact ih (s + 1) (by omega) (by omega)

/-- Helper: the requested height sits inside its bundle's height range. -/
theorem bundle_range_bounds (h N : Nat) (hN : 0 < N) :
    h / N * N ≤ h ∧ h < h / N * N + N := by
  refine ⟨Nat.div_mul_le_self h N, ?_⟩
  have h2 : h % N < N := Nat.mod_lt h hN
  have h3 : N * (h / N) + h % N = h := Nat.div_add_mod h N
  have h4 : N * (h / N) = h / N * N := Nat.mul_comm N (h / N)
  omega

/-- C6: for a `ReadConfig` with `N = save_every_n ≥ 1` (it is `> 0` in any
real deployment; `N = 0` would divide by zero in the source),
`read_blocks` returns exactly `N` pairs, the `i`-th pair's height being
`floor(h/N)*N + i` with the bundle entry of that height as value, and when
the archive file is missing every value is `None`. -/
theorem c6_read_blocks_dense (c : ReadConfig) (ch : ChainId) (h : Nat)
    (fs : ArchiveFs) (hN : 0 < c.save_every_n) :
    (read_blocks c ch h fs).length = c.save_every_n
    ∧ (∀ i, i < c.save_every_n →
        (read_blocks c ch h fs)[i]? =
          some (h / c.save_every_n * c.save_every_n + i,
            entriesGet (read_archive fs)
              (pad12 (h / c.save_every_n * c.save_every_n + i) ++ ".json")))
    ∧ (fs = none → ∀ p ∈ read_blocks c ch h fs, p.2 = none) := by
  refine ⟨by simp [read_blocks], ?_, ?_⟩
  · intro i hi
    simp [read_blocks, List.getElem?_map, List.getElem?_range hi]
  · intro hfs p hp
    subst hfs
    simp only [read_blocks, read_archive, List.mem_map] at hp
    obtain ⟨i, _, rfl⟩ := hp
    simp [entriesGet]

/-- Witness for C6 with a partially-filled bundle of three heights. -/
theorem c6_read_blocks_dense_witness :
    (read_blocks ⟨"/data", 3⟩ .mainnet 7
        (some [("000000000006.json", "A"), ("000000000008.json", "B")]))[1]? =
      some (7, none) ∧
    (read_blocks ⟨"/data", 3⟩ .mainnet 7 none).length = 3 := by
  constructor
  · have := ((c6_read_blocks_dense ⟨"/data", 3⟩ .mainnet 7
      (some [("000000000006.json", "A"), ("000000000008.json", "B")])
      (by decide)).2.1) 1 (by decide)
    rw [this]
    rfl
  · exact (c6_read_blocks_dense ⟨"/data", 3⟩ .mainnet 7 none (by decide)).1

/-- C10: with `save_every_n ≥ 1`, the sequence returned by `read_blocks`
contains exactly one pair at the requested height, so the resolver's
extraction-path lookup (the `unwrap` after `find_map`) always succeeds —
`handle_not_cached_block` on the winning extraction path never panics and
serves the bundle entry at that height, an absent entry becoming the empty
string. -/
theorem c10_extraction_lookup_total (c : ReadConfig) (ch : ChainId) (h : Nat)
    (fs : ArchiveFs) (hN : 0 < c.save_every_n) :
    (read_blocks c ch h fs).countP (fun p => p.1 == h) = 1
    ∧ (read_blocks c ch h fs).findSome? (fun p =>
        if p.1 = h then some (p.2.getD "") else none) =
        some ((entriesGet (read_archive fs) (pad12 h ++ ".json")).getD "")
    ∧ (∀ (last : Nat) (st : AppState), st.read_config = some c →
        st.is_latest = false →
        handle_not_cached_block h last .final st true fs =
          some (.done (.block
              ((entriesGet (read_archive fs) (pad12 h ++ ".json")).getD "")),
            [.readArchive (archive_filename c st.chain_id h),
             .setManyBlocks (read_blocks c st.chain_id h fs)])) := by
  obtain ⟨hb1, hb2⟩ := bundle_range_bounds h c.save_every_n hN
  have hfind : (read_blocks c ch h fs).findSome? (fun p =>
      if p.1 = h then some (p.2.getD "") else none) =
      some ((entriesGet (read_archive fs) (pad12 h ++ ".json")).getD "") := by
    rw [read_blocks_eq_range', List.findSome?_map]
    exact range'_findSome?_eq
      (fun bh => (entriesGet (read_archive fs) (pad12 bh ++ ".json")).getD "")
      h c.save_every_n _ hb1 hb2
  refine ⟨?_, hfind, ?_⟩
  · rw [read_blocks_eq_range', List.countP_map]
    have hmem : h ∈ List.range' (h / c.save_every_n * c.save_every_n)
        c.save_every_n := by
      rw [List.mem_range'_1]
      exact ⟨hb1, hb2⟩
    exact List.count_eq_one_of_mem (List.nodup_range' _ _) hmem
  · intro last st hrc hlat
    have hfind' : (read_blocks c st.chain_id h fs).findSome? (fun p =>
        if p.1 = h then some (p.2.getD "") else none) =
        some ((entriesGet (read_archive fs) (pad12 h ++ ".json")).getD "") :=
      hfind
    rw [handle_not_cached_block, hrc]
    simp only [hlat, Bool.false_eq_true, false_and, if_neg, ite_false,
      not_false_iff]
    rw [hfind']
    simp

/-- Witness for C10: the requested height is found even when its entry is
absent from the bundle (empty-string block), and the lock-winning handler
serves it. -/
theorem c10_extraction_lookup_total_witness :
    handle_not_cached_block 7 1000 .final
      ⟨.mainnet, 3, false, true, some ⟨"/data", 3⟩, none⟩ true
      (some [("000000000006.json", "A")]) =
      some (.done (.block ""),
        [.readArchive "/data/mainnet/000000/000/000000000006.tgz",
         .setManyBlocks [(6, some "A"), (7, none), (8, none)]]) := by
  have := (c10_extraction_lookup_total ⟨"/data", 3⟩ .mainnet 7
    (some [("000000000006.json", "A")]) (by decide)).2.2 1000
    ⟨.mainnet, 3, false, true, some ⟨"/data", 3⟩, none⟩ rfl rfl
  rw [this]
  rfl

/-- Helper: the retry loop makes at most 7 attempts in total. -/
theorem retryFrom_attempt_count {E A : Type} (attempts : Nat → Except E A) :
    ∀ n i d, 7 - i = n → i < 7 → (retryFrom attempts i d).2.1 ≤ 7 := by
  intro n
  induction n with
  | zero => intro i d hn hi; omega
  | succ m ih =>
    intro i d hn hi
    rw [retryFrom]
    cases hA : attempts i with
    | ok v => simp; omega
    | error e =>
      simp only
      by_cases h7 : 7 ≤ i + 1
      · simp [h7]; omega
      · simp only [if_neg h7]
        exact ih (i + 1) (d * 2) (by omega) (by omega)

/-- Helper: when every attempt fails, the retry loop runs all 7 attempts,
sleeps `d, 2d, 4d, …` and surfaces the error of the last attempt. -/
theorem retryFrom_all_fail {E A : Type} (attempts : Nat → Except E A)
    (e : Nat → E) (hall : ∀ j, j < 7 → attempts j = .error (e j)) :
    ∀ n i d, 7 - i = n → i < 7 →
      retryFrom attempts i d =
        (.error (e 6), 7, (List.range (7 - i)).map (fun k => d * 2 ^ k)) := by
  intro n
  induction n with
  | zero => intro i d hn hi; omega
  | succ m ih =>
    intro i d hn hi
    rw [retryFrom, hall i hi]
    by_cases h7 : 7 ≤ i + 1
    · have hi6 : i = 6 := by omega
      subst hi6
      simp [h7, List.range_succ]
    · simp only [if_neg h7]
      rw [ih (i + 1) (d * 2) (by omega) (by omega)]
      have h1 : 7 - i = (7 - (i + 1)) + 1 := by omega
      rw [h1, List.range_succ_eq_map, List.map_cons, List.map_map]
      refine congrArg _ (congrArg _ ?_)
      refine congrArg₂ _ (by simp) ?_
      apply List.map_congr_left
      intro a _
      simp only [Function.comp_apply, Nat.succ_eq_add_one, pow_succ]
      ring

/-- C7: every cache operation wrapped in `with_retries!` makes at most 7
attempts; when all attempts fail the loop sleeps 100 ms before the second
attempt, doubling after each subsequent failure (100, 200, 400, …), and
surfaces the last attempt's error; any error — connection and timeout
errors included — is retried, so a failure followed by a success yields
the success after the single 100 ms delay. -/
theorem c7_retry_policy {A : Type} (attempts : Nat → Except RedisErrorKind A)
    (e : Nat → RedisErrorKind) (v : A) :
    (with_retries attempts).2.1 ≤ 7
    ∧ ((∀ j, j < 7 → attempts j = .error (e j)) →
        with_retries attempts =
          (.error (e 6), 7, [100, 200, 400, 800, 1600, 3200, 6400]))
    ∧ (attempts 0 = .error (e 0) → attempts 1 = .ok v →
        with_retries attempts = (.ok v, 2, [100])) := by
  refine ⟨?_, ?_, ?_⟩
  · exact retryFrom_attempt_count attempts 7 0 100 rfl (by omega)
  · intro hall
    rw [with_retries, retryFrom_all_fail attempts e hall 7 0 100 rfl (by omega)]
    rfl
  · intro h0 h1
    rw [with_retries, retryFrom, h0]
    dsimp only
    rw [if_neg (by omega : ¬ (7 : Nat) ≤ 0 + 1), retryFrom, h1]

/-- Witness for C7: a connection error on the first attempt is retried and
the second attempt's success is returned after one 100 ms sleep; a
permanently timing-out cache surfaces the timeout after 7 attempts. -/
theorem c7_retry_policy_witness :
    with_retries (fun i => if i = 0 then .error .connection
      else (.ok "pong" : Except RedisErrorKind String)) =
      (.ok "pong", 2, [100]) ∧
    with_retries (fun _ => (.error .timeout : Except RedisErrorKind String)) =
      (.error .timeout, 7, [100, 200, 400, 800, 1600, 3200, 6400]) := by
  constructor
  · exact (c7_retry_policy
      (fun i => if i = 0 then .error .connection else .ok "pong")
      (fun _ => .connection) "pong").2.2 rfl rfl
  · exact (c7_retry_policy (fun _ => .error .timeout)
      (fun _ => .timeout) "unused").2.1 (fun j _ => rfl)

/-- An `is_latest` node state used to exhibit the unbounded resolver loop. -/
def c8State : AppState := ⟨.mainnet, 10, true, true, none, none⟩

/-- A cache environment that forever reports "block missing, last height
100" for every query iteration. -/
def c8Env : ResolverEnv := ⟨fun _ => (none, some 100), fun _ => true, none⟩

/-- Helper: under the persistent near-future miss environment, the resolver
loop never leaves the wait-and-requery cycle, whatever the fuel. -/
theorem c8_loop_aux : ∀ fuel iter,
    retrieve_block_from_cache_or_archive 101 .final c8State c8Env iter fuel =
      .fuelOut := by
  intro fuel
  induction fuel with
  | zero => intro iter; rfl
  | succ n ih => intro iter; exact ih (iter + 1)

/-- C8 as stated is false: the outer `loop` of
`retrieve_block_from_cache_or_archive` has no iteration cap. On an
`is_latest` node asking for height 101 while the cache forever answers
"missing, last = 100" (the near-future window, so every iteration waits
and retries), the loop is still running after 1000 iterations — far beyond
the claimed "roughly dozens". -/
theorem c8_counterexample_unbounded_loop :
    retrieve_block_from_cache_or_archive 101 .final c8State c8Env 0 1000 =
      .fuelOut :=
  c8_loop_aux 1000 0

/-- C8 amended: the resolver's outer Query loop is not bounded; it
terminates only when an iteration produces a block, a response, an error
or a panic, and under an environment that persistently reports the
requested near-future block as missing it iterates unboundedly (here: for
every fuel value and starting iteration it is still running). -/
theorem c8_loop_unbounded_amended : ∀ fuel iter,
    retrieve_block_from_cache_or_archive 101 .final c8State c8Env iter fuel =
      .fuelOut :=
  c8_loop_aux

/-- Helper: every lock winner is at or after the pending expiry, and
successive winners are at least one TTL apart. -/
theorem lockWinners_chain (ttl : Nat) : ∀ (ts : List Nat) (st : Option Nat),
    (∀ x ∈ lockWinners ttl st ts, ∀ e, st = some e → e ≤ x) ∧
    (lockWinners ttl st ts).Chain' (fun a b => a + ttl ≤ b) := by
  intro ts
  induction ts with
  | nil => intro st; simp [lockWinners]
  | cons t ts ih =>
    intro st
    match st with
    | none =>
      rw [lockWinners]
      simp only [acquire_archive_read_attempt]
      constructor
      · intro x hx e he
        exact absurd he (by simp)
      · rw [List.chain'_cons']
        refine ⟨?_, (ih (some (t + ttl))).2⟩
        intro b hb
        exact (ih (some (t + ttl))).1 b (List.mem_of_mem_head? hb) (t + ttl) rfl
    | some e =>
      rw [lockWinners]
      simp only [acquire_archive_read_attempt]
      by_cases hlt : t < e
      · simp only [if_pos hlt]
        constructor
        · intro x hx e' he'
          cases he'
          exact (ih (some e)).1 x hx e rfl
        · exact (ih (some e)).2
      · simp only [if_neg hlt]
        constructor
        · intro x hx e' he'
          cases he'
          rcases List.mem_cons.mp hx with rfl | hx'
          · omega
          · have := (ih (some (t + ttl))).1 x hx' (t + ttl) rfl
            omega
        · rw [List.chain'_cons']
          refine ⟨?_, (ih (some (t + ttl))).2⟩
          intro b hb
          exact (ih (some (t + ttl))).1 b (List.mem_of_mem_head? hb) (t + ttl) rfl

/-- C9: the archive attempt lock (modelled from the spec as SET-if-absent
with a TTL) admits at most one winning acquire in any TTL-length window,
so at most one `read_blocks` extraction starts per window; a requestor
that loses the race sleeps 100 ms and returns to the Query state, and a
losing requestor never performs an archive read. -/
theorem c9_single_extraction_per_window (ttl : Nat) (ts : List Nat) (w : Nat)
    (bh last : Nat) (f : Finality) (st : AppState) (rc : ReadConfig)
    (fs : ArchiveFs) :
    ((lockWinners ttl none ts).filter
        (fun t => decide (w ≤ t) && decide (t < w + ttl))).length ≤ 1
    ∧ (st.is_latest = false → st.read_config = some rc →
        handle_not_cached_block bh last .final st false fs =
          some (.retry, [.sleepMs 100]))
    ∧ (∀ out effs,
        handle_not_cached_block bh last f st false fs = some (out, effs) →
        ∀ fn, Effect.readArchive fn ∉ effs) := by
  refine ⟨?_, ?_, ?_⟩
  · haveI : IsTrans Nat (fun a b => a + ttl ≤ b) :=
      ⟨fun a b c hab hbc => by omega⟩
    have hpw : (lockWinners ttl none ts).Pairwise (fun a b => a + ttl ≤ b) :=
      (List.chain'_iff_pairwise).mp (lockWinners_chain ttl ts none).2
    have hfp := hpw.filter (fun t => decide (w ≤ t) && decide (t < w + ttl))
    match hl : (lockWinners ttl none ts).filter
        (fun t => decide (w ≤ t) && decide (t < w + ttl)) with
    | [] => simp
    | [a] => simp
    | a :: b :: r =>
      exfalso
      rw [hl] at hfp
      have hab : a + ttl ≤ b := (List.pairwise_cons.mp hfp).1 b (by simp)
      have hbmem : b ∈ (lockWinners ttl none ts).filter
          (fun t => decide (w ≤ t) && decide (t < w + ttl)) := by
        rw [hl]; simp
      have hamem : a ∈ (lockWinners ttl none ts).filter
          (fun t => decide (w ≤ t) && decide (t < w + ttl)) := by
        rw [hl]; simp
      have hap := (List.mem_filter.mp hamem).2
      have hbp := (List.mem_filter.mp hbmem).2
      simp only [Bool.and_eq_true, decide_eq_true_eq] at hap hbp
      omega
  · intro hlat hrc
    rw [handle_not_cached_block, hrc]
    simp [hlat]
  · intro out effs heq fn
    unfold handle_not_cached_block at heq
    repeat (any_goals split at heq)
    all_goals (try simp_all)
    all_goals (obtain ⟨-, rfl⟩ := heq; simp)

/-- Witness for C9: with TTL 3000 and acquire attempts at times 0, 100 and
3500, only times 0 and 3500 win; the window starting at 0 holds a single
winner, and a concrete losing requestor backs off 100 ms into retry. -/
theorem c9_single_extraction_per_window_witness :
    ((lockWinners 3000 none [0, 100, 3500]).filter
        (fun t => decide (0 ≤ t) && decide (t < 0 + 3000))).length ≤ 1 ∧
    handle_not_cached_block 50 1000 .final
      ⟨.mainnet, 3, false, true, some ⟨"/data", 3⟩, none⟩ false none =
      some (.retry, [.sleepMs 100]) := by
  constructor
  · exact (c9_single_extraction_per_window 3000 [0, 100, 3500] 0
      50 1000 .final ⟨.mainnet, 3, false, true, some ⟨"/data", 3⟩, none⟩
      ⟨"/data", 3⟩ none).1
  · exact (c9_single_extraction_per_window 3000 [0, 100, 3500] 0
      50 1000 .final ⟨.mainnet, 3, false, true, some ⟨"/data", 3⟩, none⟩
      ⟨"/data", 3⟩ none).2.1 rfl rfl

end Neardata
